import Mathlib

/-!
Verification of the mermaid orchestration core (`src/mermaidAPI.js`) against its
natural-language specification.

The file shallowly embeds the code of `mermaidAPI.js`.  External collaborators
(the d3/DOM substrate, `utils.detectType`, the per-diagram parsers and
renderers, the logger and `window.location`) are out of scope of the file under
analysis and are modelled as parameters (`Env`, `ParseEnv`), exactly at the
interface the file uses.  JavaScript exceptions are modelled with `Except`:
`Except.error` is a raised exception, `Except.ok` a normal return.
-/

set_option autoImplicit false

/-! ## Configuration store (lines 44-217, 383-416 of mermaidAPI.js)

The configuration object is a tree at most two levels deep.  Level-2 values
are scalars; level-1 values are scalars or namespace objects.  JavaScript
objects are modelled as insertion-ordered association lists (JS property
update keeps the original position, new properties are appended). -/

/-- A scalar configuration value (a JS boolean, number or string).
`axisFormatterTable` stands for the `gantt.axisFormatter` default value of
lines 193-215: an array of five (format string, predicate function) pairs;
its entries contain functions, so it is kept opaque here. -/
inductive Scalar where
  | bool (b : Bool)
  | num (n : Int)
  | str (s : String)
  | axisFormatterTable
deriving DecidableEq

/-- A level-1 namespace object: level-2 keys mapped to scalars. -/
abbrev NS := List (String × Scalar)

/-- A level-1 configuration value: either a scalar (JS `typeof` not
`'object'`) or a namespace object (JS `typeof` equal to `'object'`). -/
inductive CVal where
  | scalar (s : Scalar)
  | obj (ns : NS)
deriving DecidableEq

/-- The configuration store: level-1 keys mapped to values. -/
abbrev Config := List (String × CVal)

/-- JS property read `m[key]`: first entry with the key, `none` is
`undefined`. -/
def lookupC {α : Type} : List (String × α) → String → Option α
  | [], _ => none
  | (k, v) :: rest, key => if k = key then some v else lookupC rest key

/-- JS property write `m[key] = v`: update in place if the key is present,
append otherwise. -/
def setKey {α : Type} : List (String × α) → String → α → List (String × α)
  | [], key, v => [(key, v)]
  | (k, w) :: rest, key, v =>
    if k = key then (key, v) :: rest else (k, w) :: setKey rest key v

/-- Level-2 lookup `cfg[k][j]` when `cfg[k]` is a namespace object. -/
def lookup2 (cfg : Config) (k j : String) : Option Scalar :=
  match lookupC cfg k with
  | some (CVal.obj ns) => lookupC ns j
  | _ => none

/-- The assignment `config[lvl1Keys[i]][lvl2Keys[j]] = v` of line 400.  When
`config[k]` holds a primitive, the property write on the primitive is a silent
no-op (the module is not in strict mode). -/
def assignLvl2 (cfg : Config) (k j : String) (v : Scalar) : Config :=
  match lookupC cfg k with
  | some (CVal.obj m) => setKey cfg k (CVal.obj (setKey m j v))
  | _ => cfg

/-- One iteration of the inner `j` loop of `setConf` (lines 393-401): if
`typeof config[k] === 'undefined'` then `config[k] = {}` (line 395-398), then
`config[k][j] = cnf[k][j]` (line 400). -/
def objStep (k : String) (c : Config) (jv : String × Scalar) : Config :=
  assignLvl2 (if lookupC c k = none then setKey c k (CVal.obj []) else c) k jv.1 jv.2

/-- The body of the outer `i` loop of `setConf` (lines 387-405): if
`typeof cnf[k] === 'object'` run the inner loop over `Object.keys(cnf[k])`,
else `config[k] = cnf[k]` (line 403). -/
def setConfVal (cfg : Config) (k : String) (v : CVal) : Config :=
  match v with
  | CVal.scalar s => setKey cfg k (CVal.scalar s)
  | CVal.obj ns => ns.foldl (objStep k) cfg

/-- `setConf` (lines 383-406): iterate the outer loop over
`Object.keys(cnf)`. -/
def setConf (cfg : Config) (cnf : Config) : Config :=
  cnf.foldl (fun c kv => setConfVal c kv.1 kv.2) cfg

/-- Pure denotation of the inner merge loop: fold `setKey` over the override
namespace.  `setConf` provably computes this (see the C5 theorem). -/
def mergeNS (m : NS) (ns : NS) : NS :=
  ns.foldl (fun acc jv => setKey acc jv.1 jv.2) m

/-- A JS value passed to `exports.initialize`, with its `typeof` tag.
(`null`, whose `typeof` is also `'object'`, is not modelled: passing it makes
`Object.keys` throw and no claim quantifies over it.) -/
inductive JsArg where
  | undef
  | boolArg (b : Bool)
  | numArg (n : Int)
  | strArg (s : String)
  | fnArg
  | objArg (c : Config)

/-- The JS `typeof` operator restricted to the modelled values. -/
def jsTypeof : JsArg → String
  | JsArg.undef => "undefined"
  | JsArg.boolArg _ => "boolean"
  | JsArg.numArg _ => "number"
  | JsArg.strArg _ => "string"
  | JsArg.fnArg => "function"
  | JsArg.objArg _ => "object"

/-- `exports.initialize` (lines 407-413): only when
`typeof options === 'object'` is `setConf(options)` run. -/
def initApi (cfg : Config) (options : JsArg) : Config :=
  if jsTypeof options = "object" then
    match options with
    | JsArg.objArg c => setConf cfg c
    | _ => cfg
  else cfg

/-- `exports.getConfig` (lines 414-416): returns the live config object. -/
def getConfig (cfg : Config) : Config := cfg

/-- Default `flowchart` namespace (lines 59-70). -/
def defaultFlowchart : NS :=
  [("htmlLabels", Scalar.bool true),
   ("useMaxWidth", Scalar.bool true)]

/-- Default `sequenceDiagram` namespace (lines 76-139). -/
def defaultSequenceDiagram : NS :=
  [("diagramMarginX", Scalar.num 50),
   ("diagramMarginY", Scalar.num 10),
   ("actorMargin", Scalar.num 50),
   ("width", Scalar.num 150),
   ("height", Scalar.num 65),
   ("boxMargin", Scalar.num 10),
   ("boxTextMargin", Scalar.num 5),
   ("noteMargin", Scalar.num 10),
   ("messageMargin", Scalar.num 35),
   ("mirrorActors", Scalar.bool true),
   ("bottomMarginAdj", Scalar.num 1),
   ("useMaxWidth", Scalar.bool true)]

/-- Default `gantt` namespace (lines 144-216). -/
def defaultGantt : NS :=
  [("titleTopMargin", Scalar.num 25),
   ("barHeight", Scalar.num 20),
   ("barGap", Scalar.num 4),
   ("topPadding", Scalar.num 50),
   ("sidePadding", Scalar.num 75),
   ("gridLineStartPadding", Scalar.num 35),
   ("fontSize", Scalar.num 11),
   ("fontFamily", Scalar.str "\"Open-Sans\", \"sans-serif\""),
   ("numberSectionStyles", Scalar.num 3),
   ("axisFormatter", Scalar.axisFormatterTable)]

/-- The `config` object as declared at module load (lines 44-217): the state
of the configuration store before any `initialize` call. -/
def defaultConfig : Config :=
  [("cloneCssStyles", CVal.scalar (Scalar.bool true)),
   ("startOnLoad", CVal.scalar (Scalar.bool true)),
   ("flowchart", CVal.obj defaultFlowchart),
   ("sequenceDiagram", CVal.obj defaultSequenceDiagram),
   ("gantt", CVal.obj defaultGantt)]

/-! ## parse (lines 225-260)

The five parsers are external collaborators; each is modelled as a function
from the input text to `Except Unit Unit` (`error` = the parser threw).
`utils.detectType` is likewise external and modelled as a total function
returning the type tag string (the spec requires it not to throw).  Binding
`parser.parser.yy` mutates the external model objects only and is not
observable through any claim, so it is not carried in the state. -/

structure ParseEnv where
  detectType : String → String
  flowParse : String → Except Unit Unit
  dotParse : String → Except Unit Unit
  seqParse : String → Except Unit Unit
  infoParse : String → Except Unit Unit
  ganttParse : String → Except Unit Unit

/-- The `switch(graphType)` of lines 229-250: pick the parser bound to the
detected tag.  No `default` case exists: for an unrecognized tag the local
`parser` variable stays `undefined`, modelled as `none`. -/
def selectParser (penv : ParseEnv) (gt : String) :
    Option (String → Except Unit Unit) :=
  if gt = "graph" then some penv.flowParse
  else if gt = "dotGraph" then some penv.dotParse
  else if gt = "sequenceDiagram" then some penv.seqParse
  else if gt = "info" then some penv.infoParse
  else if gt = "gantt" then some penv.ganttParse
  else none

/-- `parse` (lines 225-259).  The `try` block covers `parser.parse(text)`;
in the unrecognized case `parser` is `undefined` and the property access
`parser.parse` throws a `TypeError` inside the same `try`, so that path is
also caught and yields `false`. -/
def parse (penv : ParseEnv) (txt : String) : Bool :=
  match selectParser penv (penv.detectType txt) with
  | none => false
  | some p =>
    match p txt with
    | Except.ok _ => true
    | Except.error _ => false

/-! ## The `url(#arrowhead` rewrite (line 358)

`String.prototype.replace` with the global literal regex
`/url\(#arrowhead/g` scans left to right and replaces every non-overlapping
occurrence.  It is embedded as a fuel-indexed scan over the character list
(fuel = length of the subject, enough because every step consumes at least
one character when the pattern is nonempty). -/

/-- If `pat` is a prefix of `s`, return the remainder of `s` after it. -/
def matchAt : List Char → List Char → Option (List Char)
  | [], s => some s
  | _ :: _, [] => none
  | p :: ps, c :: cs => if p = c then matchAt ps cs else none

/-- Does `pat` occur (as a contiguous sublist) anywhere in `s`? -/
def occursIn (pat : List Char) : List Char → Bool
  | [] => pat.isEmpty
  | c :: cs => (matchAt pat (c :: cs)).isSome || occursIn pat cs

/-- Left-to-right global replacement of `pat` by `repl`, with fuel. -/
def replaceFuel (pat repl : List Char) : Nat → List Char → List Char
  | _, [] => []
  | 0, s => s
  | n + 1, c :: cs =>
    match matchAt pat (c :: cs) with
    | some rest =>
      if pat.isEmpty then c :: replaceFuel pat repl n cs
      else repl ++ replaceFuel pat repl n rest
    | none => c :: replaceFuel pat repl n cs

/-- `s.replace(/pat/g, repl)` for a literal pattern. -/
def replaceAllStr (s pat repl : String) : String :=
  String.mk (replaceFuel pat.data repl.data s.data.length s.data)

/-- `interleave sep [a0, a1, ..., ak] = a0 ++ sep ++ a1 ++ sep ++ ... ++ ak`:
the decomposition of a subject around the occurrences of a separator. -/
def interleave (sep : List Char) : List (List Char) → List Char
  | [] => []
  | [a] => a
  | a :: rest => a ++ (sep ++ interleave sep rest)

/-- Same decomposition at the `String` level. -/
def interleaveStr (sep : String) : List String → String
  | [] => ""
  | [a] => a
  | a :: rest => a ++ (sep ++ interleaveStr sep rest)

/-- `noEarlyMatch pat a t`: in the subject `a ++ t`, no match of `pat`
starts at a position inside `a` (strictly before `t`). -/
def noEarlyMatch (pat : List Char) : List Char → List Char → Bool
  | [], _ => true
  | c :: cs, t => !(matchAt pat (c :: (cs ++ t))).isSome && noEarlyMatch pat cs t

/-- `leftmostChain pat segs`: the decomposition `interleave pat segs`
exhibits exactly the occurrences of `pat` a left-to-right scan finds — no
match starts inside a segment before its following separator, and the last
segment is occurrence-free. -/
def leftmostChain (pat : List Char) : List (List Char) → Bool
  | [] => true
  | [a] => !occursIn pat a
  | a :: rest => noEarlyMatch pat a (pat ++ interleave pat rest) && leftmostChain pat rest

/-! ## render (lines 294-380)

The presentation substrate is modelled as the list of scratch `div` nodes
present in the document, each carrying its `id` attribute (`'d' + id`) and
its current `innerHTML`.  `d3.select('#x')` returns the first node with the
given id.  The external renderers are modelled through `Env.draw`, which
either throws or yields the markup the scratch div holds afterwards; the
other renderer entry points (`setConf`, `getClasses`) and
`utils.cloneCssStyles` are glue recorded as trace events (none of them is a
declared failure point of the spec).  Observable actions are recorded in an
`Event` trace in execution order. -/

/-- A scratch `div` node in the document: its id attribute and its
`innerHTML`. -/
structure Surface where
  divId : String
  content : String
deriving DecidableEq

/-- Observable actions of one `render` call, in order. -/
inductive Event where
  | createdSurface (divId anchor : String)
  | rendererSetConf (renderer : String) (slice : Option CVal)
  | rendererDraw (renderer : String)
  | cloneCss
  | callbackInvoked (svg : String)
  | logWarn (msg : String)
  | removedSurface (divId : String)
deriving DecidableEq

/-- The external collaborators of `render`.  `draw name txt id flag` is the
selected renderer's `draw` call (`flag` is the dot-variant flag passed to the
flowchart renderer, lines 321/329); on success it returns the `innerHTML`
the scratch div holds afterwards.  `cbo` is the caller-supplied callback
(`none` = `undefined`), which may itself throw.  `protocol`, `host` and
`pathname` are `window.location` fields.  `hasRemoveMethod` says whether DOM
nodes expose `remove()` (`typeof node.remove === 'function'`, line 367);
in a browser it is `true`. -/
structure Env where
  detectType : String → String
  draw : String → String → String → Bool → Except Unit String
  cbo : Option (String → Except Unit Unit)
  protocol : String
  host : String
  pathname : String
  hasRemoveMethod : Bool

/-- `d3.select('#' ++ divId).node()`: first node with the id, else `null`. -/
def selectNode : List Surface → String → Option Surface
  | [], _ => none
  | s :: rest, t => if s.divId = t then some s else selectNode rest t

/-- The renderer writing its output into the selected scratch div: replace
the `innerHTML` of the first node with the given id. -/
def setContent : List Surface → String → String → List Surface
  | [], _, _ => []
  | s :: rest, t, c =>
    if s.divId = t then { s with content := c } :: rest
    else s :: setContent rest t c

/-- `node.remove()`: detach the first node with the given id. -/
def removeNode : List Surface → String → List Surface
  | [], _ => []
  | s :: rest, t => if s.divId = t then rest else s :: removeNode rest t

/-- The anchor the scratch div is appended under (lines 296-313): the
supplied container, or `body` when none was given. -/
def anchorOf : Option String → String
  | some c => c
  | none => "body"

/-- The markup of the freshly created scratch div (lines 297-303 / 306-312):
a `div` wrapping an `svg` with the caller's id, `width='100%'`, the SVG
namespace, and a nested `g`. -/
def initialContent (id : String) : String :=
  "<svg id=" ++ id ++ " width=100% xmlns=http://www.w3.org/2000/svg><g></g></svg>"

/-- The truthiness test `if (config.cloneCssStyles)` (lines 322/330/338/345/351). -/
def truthy : CVal → Bool
  | CVal.scalar (Scalar.bool b) => b
  | CVal.scalar (Scalar.num n) => decide (n ≠ 0)
  | CVal.scalar (Scalar.str s) => decide (s ≠ "")
  | CVal.scalar Scalar.axisFormatterTable => true
  | CVal.obj _ => true

/-- Truthiness of a possibly-`undefined` property read. -/
def isTruthy : Option CVal → Bool
  | none => false
  | some v => truthy v

/-- Whether the CSS-cloning branch of each `switch` case runs. -/
def cloneFlag (cfg : Config) : Bool := isTruthy (lookupC cfg "cloneCssStyles")

/-- One `switch` case body (lines 319-354): the renderer's `setConf` already
ran (its event is in `confEvs`; the `info` case has none), then
`draw(txt, id[, flag])` runs and may throw; on success the scratch div holds
the drawn markup and, when `config.cloneCssStyles` is truthy, the
class-cloning glue runs (`getClasses` + `utils.cloneCssStyles`, or
`utils.cloneCssStyles` with an empty class set). -/
def runDiagram (env : Env) (dom : List Surface) (divId txt id name : String)
    (flag : Bool) (confEvs : List Event) (cf : Bool) :
    List Surface × List Event × Except Unit Unit :=
  match env.draw name txt id flag with
  | Except.error e => (dom, confEvs ++ [Event.rendererDraw name], Except.error e)
  | Except.ok s =>
    (setContent dom divId s,
     confEvs ++ [Event.rendererDraw name] ++ (if cf then [Event.cloneCss] else []),
     Except.ok ())

/-- The `switch(graphType)` of lines 318-355.  The five recognized tags
dispatch to their renderer; any other tag falls through the switch with no
case taken. -/
def branchOf (env : Env) (cfg : Config) (dom1 : List Surface)
    (divId txt id gt : String) : List Surface × List Event × Except Unit Unit :=
  if gt = "graph" then
    runDiagram env dom1 divId txt id "flow" false
      [Event.rendererSetConf "flow" (lookupC cfg "flowchart")] (cloneFlag cfg)
  else if gt = "dotGraph" then
    runDiagram env dom1 divId txt id "flow" true
      [Event.rendererSetConf "flow" (lookupC cfg "flowchart")] (cloneFlag cfg)
  else if gt = "sequenceDiagram" then
    runDiagram env dom1 divId txt id "seq" false
      [Event.rendererSetConf "seq" (lookupC cfg "sequenceDiagram")] (cloneFlag cfg)
  else if gt = "gantt" then
    runDiagram env dom1 divId txt id "gantt" false
      [Event.rendererSetConf "gantt" (lookupC cfg "gantt")] (cloneFlag cfg)
  else if gt = "info" then
    runDiagram env dom1 divId txt id "info" false [] (cloneFlag cfg)
  else
    (dom1, [], Except.ok ())

/-- Line 358: the base-tag fix applied to the scratch div's `innerHTML`. -/
def fixUrl (env : Env) (content : String) : String :=
  replaceAllStr content "url(#arrowhead"
    ("url(" ++ env.protocol ++ "//" ++ env.host ++ env.pathname ++ "#arrowhead")

/-- Lines 366-369: re-select the scratch div and `remove()` it when it is
non-null and exposes `remove`. -/
def teardown (env : Env) (dom : List Surface) (divId : String) :
    List Surface × List Event :=
  match selectNode dom divId with
  | none => (dom, [])
  | some _ =>
    if env.hasRemoveMethod then (removeNode dom divId, [Event.removedSurface divId])
    else (dom, [])

/-- Lines 357-369, run after the `switch`: if the switch raised, the
exception propagates and nothing below runs.  Otherwise read the scratch
div's `innerHTML` (a `TypeError` if the node were `null`), apply the base-tag
fix, invoke the callback when supplied (line 360-364, it may throw) or log a
warning, and finally tear the scratch div down. -/
def finishRender (env : Env) (divId : String)
    (b : List Surface × List Event × Except Unit Unit) :
    Except Unit Unit × List Surface × List Event :=
  match b.2.2 with
  | Except.error e => (Except.error e, b.1, b.2.1)
  | Except.ok _ =>
    match selectNode b.1 divId with
    | none => (Except.error (), b.1, b.2.1)
    | some s =>
      let svgCode := fixUrl env s.content
      match env.cbo with
      | some cbf =>
        match cbf svgCode with
        | Except.error e =>
          (Except.error e, b.1, b.2.1 ++ [Event.callbackInvoked svgCode])
        | Except.ok _ =>
          (Except.ok (), (teardown env b.1 divId).1,
           b.2.1 ++ [Event.callbackInvoked svgCode] ++ (teardown env b.1 divId).2)
      | none =>
        (Except.ok (), (teardown env b.1 divId).1,
         b.2.1 ++ [Event.logWarn "CB = undefined"] ++ (teardown env b.1 divId).2)

/-- The internal `render` (lines 294-370).  Result: the call's outcome
(`error` = an exception escaped), the final document state, and the event
trace.  The scratch div `'d' + id` is appended (under the container or under
`body`) before the type switch runs. -/
def render (env : Env) (cfg : Config) (id txt : String)
    (container : Option String) (dom0 : List Surface) :
    Except Unit Unit × List Surface × List Event :=
  let divId := "d" ++ id
  let dom1 := dom0 ++ [{ divId := divId, content := initialContent id }]
  let b := branchOf env cfg dom1 divId txt id (env.detectType txt)
  let r := finishRender env divId b
  (r.1, r.2.1, Event.createdSurface divId (anchorOf container) :: r.2.2)

/-- `exports.render` (lines 372-380): with no `document` the body is an
empty branch (a Todo comment), otherwise the internal `render` runs. -/
def renderPublic (env : Env) (hasDocument : Bool) (cfg : Config)
    (id txt : String) (container : Option String) (dom0 : List Surface) :
    Except Unit Unit × List Surface × List Event :=
  if hasDocument then render env cfg id txt container dom0
  else (Except.ok (), dom0, [])

/-- No node in `dom` carries the id `t`. -/
def freshFor (dom : List Surface) (t : String) : Prop :=
  ∀ s ∈ dom, s.divId ≠ t

/-- Number of callback invocations recorded in a trace. -/
def countCallbacks : List Event → Nat
  | [] => 0
  | Event.callbackInvoked _ :: rest => countCallbacks rest + 1
  | _ :: rest => countCallbacks rest

/-- Events that represent invoking a diagram renderer (its configuration
setter or its draw operation). -/
def isRendererEvent : Event → Bool
  | Event.rendererSetConf _ _ => true
  | Event.rendererDraw _ => true
  | _ => false

/-! ## Concrete environments used in counterexamples and witnesses -/

/-- A browser environment whose flowchart renderer's `draw` throws. -/
def envDrawFail : Env :=
  { detectType := fun _ => "graph",
    draw := fun _ _ _ _ => Except.error (),
    cbo := some (fun _ => Except.ok ()),
    protocol := "http:",
    host := "example.com",
    pathname := "/index.html",
    hasRemoveMethod := true }

/-- A browser environment with a succeeding flowchart renderer and no
callback supplied. -/
def envFlowNoCb : Env :=
  { detectType := fun _ => "graph",
    draw := fun _ _ _ _ => Except.ok "<svg>drawn</svg>",
    cbo := none,
    protocol := "http:",
    host := "example.com",
    pathname := "/index.html",
    hasRemoveMethod := true }

/-- A browser environment with a succeeding flowchart renderer and a
non-throwing callback. -/
def envFlowCb : Env :=
  { detectType := fun _ => "graph",
    draw := fun _ _ _ _ => Except.ok "<svg>drawn</svg>",
    cbo := some (fun _ => Except.ok ()),
    protocol := "http:",
    host := "example.com",
    pathname := "/index.html",
    hasRemoveMethod := true }

/-- A browser environment whose type detector reports the unrecognized tag
`pie`. -/
def envUnknown : Env :=
  { detectType := fun _ => "pie",
    draw := fun _ _ _ _ => Except.ok "<svg>drawn</svg>",
    cbo := none,
    protocol := "http:",
    host := "example.com",
    pathname := "/index.html",
    hasRemoveMethod := true }

/-- A browser environment whose sequence renderer draws markup holding a
same-document fragment reference with a name other than `arrowhead`. -/
def envSeqGradient : Env :=
  { detectType := fun _ => "sequenceDiagram",
    draw := fun _ _ _ _ => Except.ok "url(#myGradient)",
    cbo := some (fun _ => Except.ok ()),
    protocol := "http:",
    host := "example.com",
    pathname := "/page.html",
    hasRemoveMethod := true }

/-- A browser environment whose sequence renderer draws the fixed markup
`abc` and whose callback never throws. -/
def envSeqAbc : Env :=
  { detectType := fun _ => "sequenceDiagram",
    draw := fun _ _ _ _ => Except.ok "abc",
    cbo := some (fun _ => Except.ok ()),
    protocol := "https:",
    host := "h",
    pathname := "/p",
    hasRemoveMethod := true }

/-! ## Association-list lemmas -/

theorem lookupC_setKey_self {α : Type} (m : List (String × α)) (k : String) (v : α) :
    lookupC (setKey m k v) k = some v := by
  induction m with
  | nil => simp [setKey, lookupC]
  | cons p rest ih =>
    obtain ⟨k0, w⟩ := p
    by_cases h : k0 = k
    · simp [setKey, h, lookupC]
    · simp [setKey, h, lookupC, ih]

theorem lookupC_setKey_ne {α : Type} (m : List (String × α)) (k k' : String) (v : α)
    (h : k ≠ k') : lookupC (setKey m k v) k' = lookupC m k' := by
  induction m with
  | nil => simp [setKey, lookupC, h]
  | cons p rest ih =>
    obtain ⟨k0, w⟩ := p
    by_cases h0 : k0 = k
    · subst h0; simp [setKey, lookupC, h]
    · by_cases h1 : k0 = k' <;> simp [setKey, lookupC, h0, h1, ih, Ne.symm h]

theorem assignLvl2_lookup_ne (cfg : Config) (k j : String) (v : Scalar) (k' : String)
    (h : k ≠ k') : lookupC (assignLvl2 cfg k j v) k' = lookupC cfg k' := by
  unfold assignLvl2
  cases hl : lookupC cfg k with
  | none => rfl
  | some cv =>
    cases cv with
    | scalar s => rfl
    | obj m => exact lookupC_setKey_ne _ _ _ _ h

theorem objStep_lookup_ne (k : String) (c : Config) (jv : String × Scalar) (k' : String)
    (h : k ≠ k') : lookupC (objStep k c jv) k' = lookupC c k' := by
  unfold objStep
  by_cases hn : lookupC c k = none
  · rw [if_pos hn, assignLvl2_lookup_ne _ _ _ _ _ h, lookupC_setKey_ne _ _ _ _ h]
  · rw [if_neg hn, assignLvl2_lookup_ne _ _ _ _ _ h]

theorem foldl_objStep_lookup_ne (k k' : String) (h : k ≠ k') :
    ∀ (ns : NS) (cfg : Config), lookupC (ns.foldl (objStep k) cfg) k' = lookupC cfg k' := by
  intro ns
  induction ns with
  | nil => intro cfg; rfl
  | cons jv rest ih =>
    intro cfg
    rw [List.foldl_cons, ih, objStep_lookup_ne _ _ _ _ h]

theorem setConfVal_lookup_ne (cfg : Config) (k : String) (v : CVal) (k' : String)
    (h : k ≠ k') : lookupC (setConfVal cfg k v) k' = lookupC cfg k' := by
  cases v with
  | scalar s => exact lookupC_setKey_ne _ _ _ _ h
  | obj ns => exact foldl_objStep_lookup_ne _ _ h ns cfg

theorem foldl_objStep_lookup_obj (k : String) :
    ∀ (ns : NS) (cfg : Config) (m : NS), lookupC cfg k = some (CVal.obj m) →
      lookupC (ns.foldl (objStep k) cfg) k = some (CVal.obj (mergeNS m ns)) := by
  intro ns
  induction ns with
  | nil => intro cfg m h; simp only [List.foldl_nil, mergeNS]; exact h
  | cons jv rest ih =>
    intro cfg m h
    have hstep : objStep k cfg jv = setKey cfg k (CVal.obj (setKey m jv.1 jv.2)) := by
      simp [objStep, assignLvl2, h]
    rw [List.foldl_cons, hstep, ih _ _ (lookupC_setKey_self _ _ _)]
    simp [mergeNS, List.foldl_cons]

theorem foldl_objStep_lookup_absent (k : String) (ns : NS) (cfg : Config)
    (h : lookupC cfg k = none) (hne : ns ≠ []) :
    lookupC (ns.foldl (objStep k) cfg) k = some (CVal.obj (mergeNS [] ns)) := by
  cases ns with
  | nil => cases hne rfl
  | cons jv rest =>
    have hstep : objStep k cfg jv
        = setKey (setKey cfg k (CVal.obj [])) k (CVal.obj (setKey [] jv.1 jv.2)) := by
      simp [objStep, assignLvl2, h, lookupC_setKey_self]
    rw [List.foldl_cons, hstep,
        foldl_objStep_lookup_obj k rest _ _ (lookupC_setKey_self _ _ _)]
    simp [mergeNS, List.foldl_cons, setKey]

theorem foldl_objStep_scalar (k : String) (s0 : Scalar) :
    ∀ (ns : NS) (cfg : Config), lookupC cfg k = some (CVal.scalar s0) →
      ns.foldl (objStep k) cfg = cfg := by
  intro ns
  induction ns with
  | nil => intro cfg _; rfl
  | cons jv rest ih =>
    intro cfg h
    have hstep : objStep k cfg jv = cfg := by
      simp [objStep, assignLvl2, h]
    rw [List.foldl_cons, hstep, ih cfg h]

theorem setConf_cons (cfg : Config) (kv : String × CVal) (rest : Config) :
    setConf cfg (kv :: rest) = setConf (setConfVal cfg kv.1 kv.2) rest := by
  simp [setConf, List.foldl_cons]

theorem setConf_lookup_not_mem :
    ∀ (cnf cfg : Config) (k : String), (∀ v, (k, v) ∉ cnf) →
      lookupC (setConf cfg cnf) k = lookupC cfg k := by
  intro cnf
  induction cnf with
  | nil => intro cfg k _; rfl
  | cons kv rest ih =>
    intro cfg k h
    obtain ⟨k1, v1⟩ := kv
    have hk : k1 ≠ k := by
      intro he
      exact h v1 (by rw [← he]; exact List.Mem.head _)
    rw [setConf_cons, ih _ _ (fun v hv => h v (List.Mem.tail _ hv)),
        setConfVal_lookup_ne _ _ _ _ hk]

theorem setConfVal_lookup_congr (k : String) (v : CVal) (c c' : Config)
    (h : lookupC c k = lookupC c' k) :
    lookupC (setConfVal c k v) k = lookupC (setConfVal c' k v) k := by
  cases v with
  | scalar s => rw [setConfVal, setConfVal, lookupC_setKey_self, lookupC_setKey_self]
  | obj ns =>
    show lookupC (ns.foldl (objStep k) c) k = lookupC (ns.foldl (objStep k) c') k
    cases hc : lookupC c k with
    | none =>
      have hc' : lookupC c' k = none := by rw [← h, hc]
      cases hns : ns with
      | nil => simp only [List.foldl_nil]; exact h
      | cons jv rest =>
        rw [foldl_objStep_lookup_absent k _ _ hc (by simp),
            foldl_objStep_lookup_absent k _ _ hc' (by simp)]
    | some cv =>
      have hc' : lookupC c' k = some cv := by rw [← h, hc]
      cases cv with
      | scalar s0 =>
        rw [foldl_objStep_scalar k s0 ns c hc, foldl_objStep_scalar k s0 ns c' hc', hc, hc']
      | obj m =>
        rw [foldl_objStep_lookup_obj k ns c m hc, foldl_objStep_lookup_obj k ns c' m hc']

theorem setConf_lookup_mem :
    ∀ (cnf cfg : Config) (k : String) (v : CVal),
      (cnf.map Prod.fst).Nodup → (k, v) ∈ cnf →
      lookupC (setConf cfg cnf) k = lookupC (setConfVal cfg k v) k := by
  intro cnf
  induction cnf with
  | nil => intro cfg k v _ hmem; cases hmem
  | cons kv rest ih =>
    intro cfg k v hnd hmem
    obtain ⟨k1, v1⟩ := kv
    rw [List.map_cons, List.nodup_cons] at hnd
    cases hmem with
    | head =>
      rw [setConf_cons]
      have hnotin : ∀ w, (k, w) ∉ rest := by
        intro w hw
        exact hnd.1 (List.mem_map.mpr ⟨(k, w), hw, rfl⟩)
      exact setConf_lookup_not_mem rest _ k hnotin
    | tail _ hmem =>
      have hk1 : k1 ≠ k := by
        intro he
        exact hnd.1 (he ▸ List.mem_map.mpr ⟨(k, v), hmem, rfl⟩)
      rw [setConf_cons, ih _ _ _ hnd.2 hmem]
      exact setConfVal_lookup_congr k v _ _ (setConfVal_lookup_ne _ _ _ _ hk1)

theorem mergeNS_lookup_not_mem :
    ∀ (ns m : NS) (j : String), (∀ w, (j, w) ∉ ns) →
      lookupC (mergeNS m ns) j = lookupC m j := by
  intro ns
  induction ns with
  | nil => intro m j _; rfl
  | cons jv rest ih =>
    intro m j h
    obtain ⟨j1, w1⟩ := jv
    have hj : j1 ≠ j := by
      intro he
      exact h w1 (by rw [← he]; exact List.Mem.head _)
    show lookupC (mergeNS (setKey m j1 w1) rest) j = lookupC m j
    rw [ih _ _ (fun w hw => h w (List.Mem.tail _ hw)), lookupC_setKey_ne _ _ _ _ hj]

theorem mergeNS_lookup_mem :
    ∀ (ns m : NS) (j : String) (w : Scalar),
      (ns.map Prod.fst).Nodup → (j, w) ∈ ns → lookupC (mergeNS m ns) j = some w := by
  intro ns
  induction ns with
  | nil => intro m j w _ hmem; cases hmem
  | cons jv rest ih =>
    intro m j w hnd hmem
    obtain ⟨j1, w1⟩ := jv
    rw [List.map_cons, List.nodup_cons] at hnd
    cases hmem with
    | head =>
      show lookupC (mergeNS (setKey m j w) rest) j = some w
      have hnotin : ∀ u, (j, u) ∉ rest := by
        intro u hu
        exact hnd.1 (List.mem_map.mpr ⟨(j, u), hu, rfl⟩)
      rw [mergeNS_lookup_not_mem rest _ j hnotin, lookupC_setKey_self]
    | tail _ hmem =>
      have hj : j1 ≠ j := by
        intro he
        exact hnd.1 (he ▸ List.mem_map.mpr ⟨(j, w), hmem, rfl⟩)
      exact ih _ _ _ hnd.2 hmem

/-! ## Claim C5 (corrected), C7, C10 -/

/-- C5 counterexample.  The claim says every level-1 override key with an
object value has its level-2 keys merged into the corresponding namespace,
auto-created if absent.  But when the store currently holds a scalar at that
key (here the default `cloneCssStyles: true`), `setConf` neither creates a
namespace nor merges anything: `typeof config[k]` is not `'undefined'`, so no
namespace is created, and the level-2 property write on the primitive is a
silent no-op.  The store is left entirely unchanged. -/
theorem setConf_scalar_collision_counterexample :
    initApi defaultConfig
        (JsArg.objArg [("cloneCssStyles", CVal.obj [("htmlLabels", Scalar.bool false)])])
      = defaultConfig ∧
    lookupC (initApi defaultConfig
        (JsArg.objArg [("cloneCssStyles", CVal.obj [("htmlLabels", Scalar.bool false)])]))
      "cloneCssStyles" = some (CVal.scalar (Scalar.bool true)) ∧
    lookup2 (initApi defaultConfig
        (JsArg.objArg [("cloneCssStyles", CVal.obj [("htmlLabels", Scalar.bool false)])]))
      "cloneCssStyles" "htmlLabels" = none := by
  refine ⟨?_, ?_, ?_⟩ <;> rfl

/-- C5 (amended): `initialize`/`setConf` merge semantics.  For override key
sets without duplicate keys: a level-1 key with an object value has its
level-2 keys merged one by one into the store's namespace at that key when
that namespace exists, and the namespace is auto-created when the key is
absent (and at least one level-2 key is merged); when the store holds a
scalar at that key the object override is silently ignored.  A level-1 key
with a scalar value replaces the stored value directly.  Keys absent from
the overrides are never changed or deleted.  Within a merged namespace,
overridden level-2 keys take the override value and all other level-2 keys
keep their prior value.  In particular, after
`initialize({flowchart: {htmlLabels: false}})`, `flowchart.htmlLabels` is
`false` while `flowchart.useMaxWidth` keeps its default `true`. -/
theorem setConf_merge_semantics :
    (∀ (cfg cnf : Config) (k : String) (s : Scalar),
       (cnf.map Prod.fst).Nodup → (k, CVal.scalar s) ∈ cnf →
       lookupC (setConf cfg cnf) k = some (CVal.scalar s)) ∧
    (∀ (cfg cnf : Config) (k : String) (ns m : NS),
       (cnf.map Prod.fst).Nodup → (k, CVal.obj ns) ∈ cnf →
       lookupC cfg k = some (CVal.obj m) →
       lookupC (setConf cfg cnf) k = some (CVal.obj (mergeNS m ns))) ∧
    (∀ (cfg cnf : Config) (k : String) (ns : NS),
       (cnf.map Prod.fst).Nodup → (k, CVal.obj ns) ∈ cnf →
       lookupC cfg k = none → ns ≠ [] →
       lookupC (setConf cfg cnf) k = some (CVal.obj (mergeNS [] ns))) ∧
    (∀ (cfg cnf : Config) (k : String) (ns : NS) (s0 : Scalar),
       (cnf.map Prod.fst).Nodup → (k, CVal.obj ns) ∈ cnf →
       lookupC cfg k = some (CVal.scalar s0) →
       lookupC (setConf cfg cnf) k = some (CVal.scalar s0)) ∧
    (∀ (cfg cnf : Config) (k : String),
       (∀ v, (k, v) ∉ cnf) →
       lookupC (setConf cfg cnf) k = lookupC cfg k) ∧
    (∀ (m ns : NS) (j : String) (w : Scalar),
       (ns.map Prod.fst).Nodup → (j, w) ∈ ns →
       lookupC (mergeNS m ns) j = some w) ∧
    (∀ (m ns : NS) (j : String),
       (∀ w, (j, w) ∉ ns) →
       lookupC (mergeNS m ns) j = lookupC m j) ∧
    (lookup2 (getConfig (initApi defaultConfig
         (JsArg.objArg [("flowchart", CVal.obj [("htmlLabels", Scalar.bool false)])])))
       "flowchart" "htmlLabels" = some (Scalar.bool false) ∧
     lookup2 (getConfig (initApi defaultConfig
         (JsArg.objArg [("flowchart", CVal.obj [("htmlLabels", Scalar.bool false)])])))
       "flowchart" "useMaxWidth" = some (Scalar.bool true)) := by
  refine ⟨?_, ?_, ?_, ?_, ?_, ?_, ?_, ?_, ?_⟩
  · intro cfg cnf k s hnd hmem
    rw [setConf_lookup_mem cnf cfg k _ hnd hmem]
    exact lookupC_setKey_self _ _ _
  · intro cfg cnf k ns m hnd hmem hm
    rw [setConf_lookup_mem cnf cfg k _ hnd hmem]
    exact foldl_objStep_lookup_obj k ns cfg m hm
  · intro cfg cnf k ns hnd hmem hnone hne
    rw [setConf_lookup_mem cnf cfg k _ hnd hmem]
    exact foldl_objStep_lookup_absent k ns cfg hnone hne
  · intro cfg cnf k ns s0 hnd hmem hs
    rw [setConf_lookup_mem cnf cfg k _ hnd hmem]
    show lookupC (ns.foldl (objStep k) cfg) k = some (CVal.scalar s0)
    rw [foldl_objStep_scalar k s0 ns cfg hs]
    exact hs
  · intro cfg cnf k h
    exact setConf_lookup_not_mem cnf cfg k h
  · intro m ns j w hnd hmem
    exact mergeNS_lookup_mem ns m j w hnd hmem
  · intro m ns j h
    exact mergeNS_lookup_not_mem ns m j h
  · rfl
  · rfl

/-- C5 witness: the hypotheses of every general conjunct of the amended C5
theorem are satisfied at concrete inputs, and the theorem evaluates there as
stated. -/
theorem setConf_merge_semantics_witness :
    lookupC (setConf defaultConfig [("startOnLoad", CVal.scalar (Scalar.bool false))])
      "startOnLoad" = some (CVal.scalar (Scalar.bool false)) ∧
    lookupC (setConf defaultConfig [("flowchart", CVal.obj [("htmlLabels", Scalar.bool false)])])
      "flowchart"
      = some (CVal.obj (mergeNS defaultFlowchart [("htmlLabels", Scalar.bool false)])) ∧
    lookupC (setConf defaultConfig [("theme", CVal.obj [("dark", Scalar.bool true)])])
      "theme" = some (CVal.obj (mergeNS [] [("dark", Scalar.bool true)])) ∧
    lookupC (setConf defaultConfig [("startOnLoad", CVal.obj [("x", Scalar.num 1)])])
      "startOnLoad" = some (CVal.scalar (Scalar.bool true)) ∧
    lookupC (setConf defaultConfig [("flowchart", CVal.obj [("htmlLabels", Scalar.bool false)])])
      "gantt" = lookupC defaultConfig "gantt" ∧
    lookupC (mergeNS defaultFlowchart [("htmlLabels", Scalar.bool false)]) "htmlLabels"
      = some (Scalar.bool false) ∧
    lookupC (mergeNS defaultFlowchart [("htmlLabels", Scalar.bool false)]) "useMaxWidth"
      = lookupC defaultFlowchart "useMaxWidth" :=
  ⟨setConf_merge_semantics.1 defaultConfig _ "startOnLoad" (Scalar.bool false)
     (by decide) (List.Mem.head _),
   setConf_merge_semantics.2.1 defaultConfig _ "flowchart"
     [("htmlLabels", Scalar.bool false)] defaultFlowchart
     (by decide) (List.Mem.head _) (by rfl),
   setConf_merge_semantics.2.2.1 defaultConfig _ "theme" [("dark", Scalar.bool true)]
     (by decide) (List.Mem.head _) (by rfl) (by decide),
   setConf_merge_semantics.2.2.2.1 defaultConfig _ "startOnLoad" [("x", Scalar.num 1)]
     (Scalar.bool true) (by decide) (List.Mem.head _) (by rfl),
   setConf_merge_semantics.2.2.2.2.1 defaultConfig _ "gantt"
     (by intro v hv; simp at hv),
   setConf_merge_semantics.2.2.2.2.2.1 defaultFlowchart _ "htmlLabels" (Scalar.bool false)
     (by decide) (List.Mem.head _),
   setConf_merge_semantics.2.2.2.2.2.2.1 defaultFlowchart _ "useMaxWidth"
     (by intro w hw; simp at hw)⟩

/-- C7: before any `initialize` call, `getConfig` returns exactly the
declared defaults — global `cloneCssStyles: true` and `startOnLoad: true`,
and the `flowchart`, `sequenceDiagram` and `gantt` namespaces with their
declared settings; no `info` namespace exists. -/
theorem getConfig_defaults :
    getConfig defaultConfig =
      [("cloneCssStyles", CVal.scalar (Scalar.bool true)),
       ("startOnLoad", CVal.scalar (Scalar.bool true)),
       ("flowchart", CVal.obj
         [("htmlLabels", Scalar.bool true),
          ("useMaxWidth", Scalar.bool true)]),
       ("sequenceDiagram", CVal.obj
         [("diagramMarginX", Scalar.num 50),
          ("diagramMarginY", Scalar.num 10),
          ("actorMargin", Scalar.num 50),
          ("width", Scalar.num 150),
          ("height", Scalar.num 65),
          ("boxMargin", Scalar.num 10),
          ("boxTextMargin", Scalar.num 5),
          ("noteMargin", Scalar.num 10),
          ("messageMargin", Scalar.num 35),
          ("mirrorActors", Scalar.bool true),
          ("bottomMarginAdj", Scalar.num 1),
          ("useMaxWidth", Scalar.bool true)]),
       ("gantt", CVal.obj
         [("titleTopMargin", Scalar.num 25),
          ("barHeight", Scalar.num 20),
          ("barGap", Scalar.num 4),
          ("topPadding", Scalar.num 50),
          ("sidePadding", Scalar.num 75),
          ("gridLineStartPadding", Scalar.num 35),
          ("fontSize", Scalar.num 11),
          ("fontFamily", Scalar.str "\"Open-Sans\", \"sans-serif\""),
          ("numberSectionStyles", Scalar.num 3),
          ("axisFormatter", Scalar.axisFormatterTable)])] ∧
    lookupC (getConfig defaultConfig) "info" = none := ⟨rfl, rfl⟩

/-- C10: `initialize` with any argument whose `typeof` is not `'object'`
(`undefined`, a string, a number, a boolean, a function) leaves the
configuration store entirely unchanged. -/
theorem initApi_non_object_noop (cfg : Config) (a : JsArg)
    (h : jsTypeof a ≠ "object") : initApi cfg a = cfg := by
  cases a with
  | undef => rfl
  | boolArg b => rfl
  | numArg n => rfl
  | strArg s => rfl
  | fnArg => rfl
  | objArg c => exact absurd rfl h

/-- C10 witness: `initialize(undefined)` on the default store. -/
theorem initApi_non_object_noop_witness :
    jsTypeof JsArg.undef ≠ "object" ∧
    initApi defaultConfig JsArg.undef = defaultConfig :=
  ⟨by decide, initApi_non_object_noop defaultConfig JsArg.undef (by decide)⟩

/-! ## Claim C6: parse reports outcomes by boolean -/

theorem parse_true_iff (penv : ParseEnv) (txt : String) :
    parse penv txt = true ↔
      ∃ p, selectParser penv (penv.detectType txt) = some p ∧ p txt = Except.ok () := by
  unfold parse
  cases hsel : selectParser penv (penv.detectType txt) with
  | none => simp
  | some p =>
    cases hp : p txt with
    | ok u => cases u; simp [hp]
    | error e => simp [hp]

/-- C6: `parse` always returns a boolean; it returns `true` exactly when the
parser selected for the detected type succeeds, and every parser failure
(including the `TypeError` from the undefined parser on an unrecognized tag)
is caught and converted to `false` — by construction no exception escapes
(`parse` is a total `Bool`-valued function of the environment and text). -/
theorem parse_reports_boolean (penv : ParseEnv) (txt : String) :
    parse penv txt = true ↔
      ∃ p, selectParser penv (penv.detectType txt) = some p ∧ p txt = Except.ok () :=
  parse_true_iff penv txt

/-! ## Surface-list lemmas -/

theorem selectNode_append_some :
    ∀ (l : List Surface) (x : Surface) (t : String), x.divId = t →
      ∃ y, selectNode (l ++ [x]) t = some y := by
  intro l
  induction l with
  | nil => intro x t hx; exact ⟨x, by simp [selectNode, hx]⟩
  | cons a l ih =>
    intro x t hx
    by_cases ha : a.divId = t
    · exact ⟨a, by simp [selectNode, ha]⟩
    · obtain ⟨y, hy⟩ := ih x t hx
      exact ⟨y, by simp [selectNode, ha, hy]⟩

theorem selectNode_setContent (t c : String) :
    ∀ l : List Surface,
      selectNode (setContent l t c) t =
        Option.map (fun y => { y with content := c }) (selectNode l t) := by
  intro l
  induction l with
  | nil => rfl
  | cons a l ih =>
    by_cases ha : a.divId = t
    · simp [setContent, selectNode, ha]
    · simp [setContent, selectNode, ha, ih]

theorem selectNode_of_fresh :
    ∀ (l : List Surface) (t : String), freshFor l t → selectNode l t = none := by
  intro l
  induction l with
  | nil => intro t _; rfl
  | cons a l ih =>
    intro t h
    have ha : a.divId ≠ t := h a (List.Mem.head _)
    simp only [selectNode, ha, if_false]
    exact ih t (fun s hs => h s (List.Mem.tail _ hs))

theorem selectNode_append_fresh :
    ∀ (l : List Surface) (x : Surface) (t : String), freshFor l t → x.divId = t →
      selectNode (l ++ [x]) t = some x := by
  intro l
  induction l with
  | nil => intro x t _ hx; simp [selectNode, hx]
  | cons a l ih =>
    intro x t h hx
    have ha : a.divId ≠ t := h a (List.Mem.head _)
    simp only [List.cons_append, selectNode, ha, if_false]
    exact ih x t (fun s hs => h s (List.Mem.tail _ hs)) hx

theorem setContent_append_fresh :
    ∀ (l : List Surface) (x : Surface) (t c : String), freshFor l t → x.divId = t →
      setContent (l ++ [x]) t c = l ++ [{ x with content := c }] := by
  intro l
  induction l with
  | nil => intro x t c _ hx; simp [setContent, hx]
  | cons a l ih =>
    intro x t c h hx
    have ha : a.divId ≠ t := h a (List.Mem.head _)
    simp only [List.cons_append, setContent, ha, if_false, List.cons.injEq, true_and]
    exact ih x t c (fun s hs => h s (List.Mem.tail _ hs)) hx

theorem removeNode_append_fresh :
    ∀ (l : List Surface) (x : Surface) (t : String), freshFor l t → x.divId = t →
      removeNode (l ++ [x]) t = l := by
  intro l
  induction l with
  | nil => intro x t _ hx; simp [removeNode, hx]
  | cons a l ih =>
    intro x t h hx
    have ha : a.divId ≠ t := h a (List.Mem.head _)
    simp only [List.cons_append, removeNode, ha, if_false, List.cons.injEq, true_and]
    exact ih x t (fun s hs => h s (List.Mem.tail _ hs)) hx

theorem teardown_fresh (env : Env) (l : List Surface) (x : Surface) (t : String)
    (hb : env.hasRemoveMethod = true) (hf : freshFor l t) (hx : x.divId = t) :
    teardown env (l ++ [x]) t = (l, [Event.removedSurface t]) := by
  simp [teardown, selectNode_append_fresh l x t hf hx, hb,
        removeNode_append_fresh l x t hf hx]

theorem countCallbacks_append (l l' : List Event) :
    countCallbacks (l ++ l') = countCallbacks l + countCallbacks l' := by
  induction l with
  | nil => simp [countCallbacks]
  | cons e l ih => cases e <;> (simp [countCallbacks, ih]; try omega)

theorem teardown_countCallbacks (env : Env) (dom : List Surface) (t : String) :
    countCallbacks (teardown env dom t).2 = 0 := by
  unfold teardown
  cases selectNode dom t with
  | none => rfl
  | some s =>
    cases hb : env.hasRemoveMethod <;> simp [hb, countCallbacks]

theorem teardown_no_renderer_events (env : Env) (dom : List Surface) (t : String) :
    ∀ e ∈ (teardown env dom t).2, isRendererEvent e = false := by
  unfold teardown
  cases selectNode dom t with
  | none => simp
  | some s =>
    cases hb : env.hasRemoveMethod <;> simp [hb, isRendererEvent]

/-! ## branchOf and finishRender lemmas -/

theorem branchOf_dom (env : Env) (cfg : Config) (dom1 : List Surface)
    (divId txt id gt : String) :
    (branchOf env cfg dom1 divId txt id gt).1 = dom1 ∨
    ∃ s, (branchOf env cfg dom1 divId txt id gt).1 = setContent dom1 divId s := by
  unfold branchOf
  split_ifs <;>
    first
      | exact Or.inl rfl
      | (unfold runDiagram
         split
         · exact Or.inl rfl
         · rename_i s _
           exact Or.inr ⟨s, rfl⟩)

theorem branchOf_outcome_ok (env : Env) (cfg : Config) (dom1 : List Surface)
    (divId txt id gt : String)
    (hdraw : ∀ name t i fl, ∃ s, env.draw name t i fl = Except.ok s) :
    (branchOf env cfg dom1 divId txt id gt).2.2 = Except.ok () := by
  unfold branchOf
  split_ifs with h1 h2 h3 h4 h5
  · obtain ⟨s, hs⟩ := hdraw "flow" txt id false
    simp [runDiagram, hs]
  · obtain ⟨s, hs⟩ := hdraw "flow" txt id true
    simp [runDiagram, hs]
  · obtain ⟨s, hs⟩ := hdraw "seq" txt id false
    simp [runDiagram, hs]
  · obtain ⟨s, hs⟩ := hdraw "gantt" txt id false
    simp [runDiagram, hs]
  · obtain ⟨s, hs⟩ := hdraw "info" txt id false
    simp [runDiagram, hs]
  · rfl

theorem branchOf_countCallbacks (env : Env) (cfg : Config) (dom1 : List Surface)
    (divId txt id gt : String) :
    countCallbacks (branchOf env cfg dom1 divId txt id gt).2.1 = 0 := by
  unfold branchOf
  split_ifs <;>
    first
      | rfl
      | (unfold runDiagram
         split
         · rfl
         · split <;> rfl)

theorem finishRender_ok_cb_ok (env : Env) (divId : String)
    (b : List Surface × List Event × Except Unit Unit) (sNode : Surface)
    (cbf : String → Except Unit Unit)
    (hout : b.2.2 = Except.ok ()) (hsel : selectNode b.1 divId = some sNode)
    (hcbo : env.cbo = some cbf)
    (hcb : cbf (fixUrl env sNode.content) = Except.ok ()) :
    finishRender env divId b =
      (Except.ok (), (teardown env b.1 divId).1,
       b.2.1 ++ [Event.callbackInvoked (fixUrl env sNode.content)]
         ++ (teardown env b.1 divId).2) := by
  simp [finishRender, hout, hsel, hcbo, hcb]

theorem finishRender_ok_cb_err (env : Env) (divId : String)
    (b : List Surface × List Event × Except Unit Unit) (sNode : Surface)
    (cbf : String → Except Unit Unit) (e : Unit)
    (hout : b.2.2 = Except.ok ()) (hsel : selectNode b.1 divId = some sNode)
    (hcbo : env.cbo = some cbf)
    (hcb : cbf (fixUrl env sNode.content) = Except.error e) :
    finishRender env divId b =
      (Except.error e, b.1,
       b.2.1 ++ [Event.callbackInvoked (fixUrl env sNode.content)]) := by
  simp [finishRender, hout, hsel, hcbo, hcb]

theorem finishRender_ok_nocb (env : Env) (divId : String)
    (b : List Surface × List Event × Except Unit Unit) (sNode : Surface)
    (hout : b.2.2 = Except.ok ()) (hsel : selectNode b.1 divId = some sNode)
    (hcbo : env.cbo = none) :
    finishRender env divId b =
      (Except.ok (), (teardown env b.1 divId).1,
       b.2.1 ++ [Event.logWarn "CB = undefined"] ++ (teardown env b.1 divId).2) := by
  simp [finishRender, hout, hsel, hcbo]

theorem finishRender_ok_imp_teardown (env : Env) (divId : String)
    (b : List Surface × List Event × Except Unit Unit)
    (h : (finishRender env divId b).1 = Except.ok ()) :
    (finishRender env divId b).2.1 = (teardown env b.1 divId).1 := by
  cases hout : b.2.2 with
  | error e => simp [finishRender, hout] at h
  | ok u =>
    cases u
    cases hsel : selectNode b.1 divId with
    | none => simp [finishRender, hout, hsel] at h
    | some sNode =>
      cases hcbo : env.cbo with
      | none => simp [finishRender, hout, hsel, hcbo]
      | some cbf =>
        cases hcb : cbf (fixUrl env sNode.content) with
        | error e => simp [finishRender, hout, hsel, hcbo, hcb] at h
        | ok u2 => cases u2; simp [finishRender, hout, hsel, hcbo, hcb]

/-! ## Claim C8: headless guard -/

/-- C8: with no `document` in scope, the public `render` performs no
DOM-dependent work — the state is untouched, no event occurs and no error is
raised; the internal `render` routine runs exactly when a document is
present. -/
theorem renderPublic_document_guard (env : Env) (cfg : Config) (id txt : String)
    (container : Option String) (dom0 : List Surface) :
    renderPublic env false cfg id txt container dom0 = (Except.ok (), dom0, []) ∧
    renderPublic env true cfg id txt container dom0 =
      render env cfg id txt container dom0 :=
  ⟨rfl, rfl⟩

/-! ## Claim C1 (corrected): scratch-surface teardown -/

/-- C1 counterexample.  In a browser environment whose selected renderer's
`draw` raises, the exception propagates out of `render` (modelled by the
`Except.error` outcome) and the scratch surface `d` + id is still in the
presentation tree afterwards: the removal of lines 366-369 is skipped because
no construct in `render` guarantees teardown on the exception path. -/
theorem render_draw_failure_leaves_surface :
    (render envDrawFail defaultConfig "i1" "graph TB" none []).1 = Except.error () ∧
    selectNode (render envDrawFail defaultConfig "i1" "graph TB" none []).2.1 "di1" =
      some { divId := "di1", content := initialContent "i1" } :=
  ⟨rfl, rfl⟩

/-- C1 (amended): in a browser environment (nodes expose `remove()`), on
every call where `render` returns normally — and no pre-existing node shares
the scratch id — the scratch surface `d` + id is removed from the
presentation tree before the call returns.  (When the selected renderer's
draw, or the callback, raises, the exception propagates and the surface is
left behind; see the counterexample.) -/
theorem render_removes_surface_on_normal_return (env : Env) (cfg : Config)
    (id txt : String) (container : Option String) (dom0 : List Surface)
    (hb : env.hasRemoveMethod = true)
    (hf : freshFor dom0 ("d" ++ id))
    (hok : (render env cfg id txt container dom0).1 = Except.ok ()) :
    selectNode (render env cfg id txt container dom0).2.1 ("d" ++ id) = none := by
  have hok' : (finishRender env ("d" ++ id)
      (branchOf env cfg
        (dom0 ++ [{ divId := "d" ++ id, content := initialContent id }])
        ("d" ++ id) txt id (env.detectType txt))).1 = Except.ok () := hok
  show selectNode (finishRender env ("d" ++ id)
      (branchOf env cfg
        (dom0 ++ [{ divId := "d" ++ id, content := initialContent id }])
        ("d" ++ id) txt id (env.detectType txt))).2.1 ("d" ++ id) = none
  rw [finishRender_ok_imp_teardown _ _ _ hok']
  rcases branchOf_dom env cfg
      (dom0 ++ [{ divId := "d" ++ id, content := initialContent id }])
      ("d" ++ id) txt id (env.detectType txt) with h | ⟨s, h⟩
  · rw [h, teardown_fresh env dom0 _ ("d" ++ id) hb hf rfl]
    exact selectNode_of_fresh dom0 _ hf
  · rw [h, setContent_append_fresh dom0 _ ("d" ++ id) s hf rfl,
        teardown_fresh env dom0 _ ("d" ++ id) hb hf rfl]
    exact selectNode_of_fresh dom0 _ hf

/-- C1 witness: a normal flowchart render in a browser removes its surface. -/
theorem render_removes_surface_witness :
    envFlowNoCb.hasRemoveMethod = true ∧
    (render envFlowNoCb defaultConfig "w1" "graph TB" none []).1 = Except.ok () ∧
    selectNode (render envFlowNoCb defaultConfig "w1" "graph TB" none []).2.1
      ("d" ++ "w1") = none :=
  ⟨rfl, rfl,
   render_removes_surface_on_normal_return envFlowNoCb defaultConfig "w1" "graph TB"
     none [] rfl (fun s hs => absurd hs (List.not_mem_nil s)) rfl⟩

/-! ## Claim C2 (corrected): unrecognized type -/

/-- C2 counterexample.  For a text whose detected tag (`pie`) matches no
recognized rule, `render` still creates the scratch surface: the surface is
appended (lines 296-313) before `detectType` even runs, as the first event of
the trace shows.  The rest of the call invokes no renderer, logs the missing
callback, and removes the surface again. -/
theorem render_unrecognized_creates_surface :
    (render envUnknown defaultConfig "i2" "pie data" none []).2.2 =
      [Event.createdSurface "di2" "body",
       Event.logWarn "CB = undefined",
       Event.removedSurface "di2"] :=
  rfl

/-- C2 (amended): for every text whose detected diagram type matches no
recognized tag, `render` invokes no diagram renderer (neither a
configuration-setter nor a draw operation) and — provided the callback, if
any, does not raise — completes without error; the scratch surface is
nonetheless created exactly as for recognized types (first event of the
trace). -/
theorem render_unrecognized_no_renderer (env : Env) (cfg : Config) (id txt : String)
    (container : Option String) (dom0 : List Surface)
    (h1 : env.detectType txt ≠ "graph") (h2 : env.detectType txt ≠ "dotGraph")
    (h3 : env.detectType txt ≠ "sequenceDiagram") (h4 : env.detectType txt ≠ "gantt")
    (h5 : env.detectType txt ≠ "info")
    (hcb : ∀ cbf s, env.cbo = some cbf → cbf s = Except.ok ()) :
    (render env cfg id txt container dom0).1 = Except.ok () ∧
    (∀ e ∈ (render env cfg id txt container dom0).2.2, isRendererEvent e = false) ∧
    (render env cfg id txt container dom0).2.2.head? =
      some (Event.createdSurface ("d" ++ id) (anchorOf container)) := by
  have hbr : branchOf env cfg
      (dom0 ++ [{ divId := "d" ++ id, content := initialContent id }])
      ("d" ++ id) txt id (env.detectType txt)
      = (dom0 ++ [{ divId := "d" ++ id, content := initialContent id }], [],
         Except.ok ()) := by
    simp [branchOf, h1, h2, h3, h4, h5]
  obtain ⟨y, hy⟩ := selectNode_append_some dom0
    { divId := "d" ++ id, content := initialContent id } ("d" ++ id) rfl
  cases hcbo : env.cbo with
  | none =>
    have hfin := finishRender_ok_nocb env ("d" ++ id)
      (dom0 ++ [{ divId := "d" ++ id, content := initialContent id }], [],
       Except.ok ()) y rfl hy hcbo
    refine ⟨?_, ?_, ?_⟩
    · show (finishRender env ("d" ++ id)
          (branchOf env cfg
            (dom0 ++ [{ divId := "d" ++ id, content := initialContent id }])
            ("d" ++ id) txt id (env.detectType txt))).1 = Except.ok ()
      rw [hbr, hfin]
    · show ∀ e ∈ Event.createdSurface ("d" ++ id) (anchorOf container) ::
          (finishRender env ("d" ++ id)
            (branchOf env cfg
              (dom0 ++ [{ divId := "d" ++ id, content := initialContent id }])
              ("d" ++ id) txt id (env.detectType txt))).2.2,
          isRendererEvent e = false
      rw [hbr, hfin]
      intro e he
      simp only [List.nil_append, List.singleton_append, List.mem_cons] at he
      rcases he with he | he | he
      · subst he; rfl
      · subst he; rfl
      · exact teardown_no_renderer_events env _ _ e he
    · rfl
  | some cbf =>
    have hfin := finishRender_ok_cb_ok env ("d" ++ id)
      (dom0 ++ [{ divId := "d" ++ id, content := initialContent id }], [],
       Except.ok ()) y cbf rfl hy hcbo (hcb cbf _ hcbo)
    refine ⟨?_, ?_, ?_⟩
    · show (finishRender env ("d" ++ id)
          (branchOf env cfg
            (dom0 ++ [{ divId := "d" ++ id, content := initialContent id }])
            ("d" ++ id) txt id (env.detectType txt))).1 = Except.ok ()
      rw [hbr, hfin]
    · show ∀ e ∈ Event.createdSurface ("d" ++ id) (anchorOf container) ::
          (finishRender env ("d" ++ id)
            (branchOf env cfg
              (dom0 ++ [{ divId := "d" ++ id, content := initialContent id }])
              ("d" ++ id) txt id (env.detectType txt))).2.2,
          isRendererEvent e = false
      rw [hbr, hfin]
      intro e he
      simp only [List.nil_append, List.singleton_append, List.mem_cons] at he
      rcases he with he | he | he
      · subst he; rfl
      · subst he; rfl
      · exact teardown_no_renderer_events env _ _ e he
    · rfl

/-- C2 witness: a concrete unrecognized render invokes no renderer. -/
theorem render_unrecognized_no_renderer_witness :
    (render envUnknown defaultConfig "w2" "pie data" none []).1 = Except.ok () ∧
    (∀ e ∈ (render envUnknown defaultConfig "w2" "pie data" none []).2.2,
       isRendererEvent e = false) ∧
    (render envUnknown defaultConfig "w2" "pie data" none []).2.2.head? =
      some (Event.createdSurface ("d" ++ "w2") (anchorOf none)) :=
  render_unrecognized_no_renderer envUnknown defaultConfig "w2" "pie data" none []
    (by decide) (by decide) (by decide) (by decide) (by decide)
    (fun cbf s h => nomatch h)

/-! ## Claim C4 (corrected): exception policy of the facade -/

/-- C4 counterexample.  A renderer `draw` failure propagates uncaught out of
the public `render` facade (the outcome of the call is the raised exception,
not a callback invocation). -/
theorem render_public_exception_escapes :
    (renderPublic envDrawFail true defaultConfig "i3" "graph TB" none []).1 =
      Except.error () :=
  rfl

/-- C4 (amended): no exception ever escapes `parse` — its outcome is always
the boolean (`true` exactly when the selected parser succeeds).  The public
`render` reports its outcome without raising whenever the selected renderer's
draw operation and the supplied callback complete without raising; when
`draw` (or the callback) raises, the exception propagates uncaught out of the
facade (see the counterexample). -/
theorem facade_exception_policy :
    (∀ (penv : ParseEnv) (txt : String),
       parse penv txt = true ↔
         ∃ p, selectParser penv (penv.detectType txt) = some p ∧
           p txt = Except.ok ()) ∧
    (∀ (env : Env) (hasDocument : Bool) (cfg : Config) (id txt : String)
       (container : Option String) (dom0 : List Surface),
       (∀ name t i fl, ∃ s, env.draw name t i fl = Except.ok s) →
       (∀ cbf s, env.cbo = some cbf → cbf s = Except.ok ()) →
       (renderPublic env hasDocument cfg id txt container dom0).1 =
         Except.ok ()) := by
  refine ⟨parse_true_iff, ?_⟩
  intro env hasDocument cfg id txt container dom0 hdraw hcb
  cases hasDocument with
  | false => rfl
  | true =>
    have hbo := branchOf_outcome_ok env cfg
      (dom0 ++ [{ divId := "d" ++ id, content := initialContent id }])
      ("d" ++ id) txt id (env.detectType txt) hdraw
    have hseldom : ∃ y, selectNode (branchOf env cfg
        (dom0 ++ [{ divId := "d" ++ id, content := initialContent id }])
        ("d" ++ id) txt id (env.detectType txt)).1 ("d" ++ id) = some y := by
      rcases branchOf_dom env cfg
          (dom0 ++ [{ divId := "d" ++ id, content := initialContent id }])
          ("d" ++ id) txt id (env.detectType txt) with h | ⟨s, h⟩
      · rw [h]
        exact selectNode_append_some dom0 _ ("d" ++ id) rfl
      · rw [h, selectNode_setContent]
        obtain ⟨y, hy⟩ := selectNode_append_some dom0
          { divId := "d" ++ id, content := initialContent id } ("d" ++ id) rfl
        rw [hy]
        exact ⟨_, rfl⟩
    obtain ⟨y, hy⟩ := hseldom
    show (finishRender env ("d" ++ id)
        (branchOf env cfg
          (dom0 ++ [{ divId := "d" ++ id, content := initialContent id }])
          ("d" ++ id) txt id (env.detectType txt))).1 = Except.ok ()
    cases hcbo : env.cbo with
    | none => rw [finishRender_ok_nocb env ("d" ++ id) _ y hbo hy hcbo]
    | some cbf =>
      rw [finishRender_ok_cb_ok env ("d" ++ id) _ y cbf hbo hy hcbo (hcb cbf _ hcbo)]

/-- C4 witness: a concrete non-throwing render reaches a normal outcome. -/
theorem facade_exception_policy_witness :
    (renderPublic envFlowCb true defaultConfig "w4" "graph TB" none []).1 =
      Except.ok () :=
  facade_exception_policy.2 envFlowCb true defaultConfig "w4" "graph TB" none []
    (fun _ _ _ _ => ⟨"<svg>drawn</svg>", rfl⟩)
    (fun cbf s h => by cases h; rfl)

/-! ## Claim C9 (corrected): callback invocation discipline -/

/-- C9 counterexample.  A render call with a callback supplied whose
renderer `draw` raises never invokes the callback (zero invocations in the
trace), and `render` exits by exception rather than returning: the claim
that the callback is always invoked exactly once, and that `render` always
completes, fails on the renderer-failure path. -/
theorem render_draw_failure_no_callback :
    countCallbacks (render envDrawFail defaultConfig "i5" "graph TB" none []).2.2 = 0 ∧
    (render envDrawFail defaultConfig "i5" "graph TB" none []).1 = Except.error () :=
  ⟨rfl, rfl⟩

set_option maxHeartbeats 1000000 in
/-- C9 (amended): whenever the selected renderer's draw completes without
raising: a supplied, non-throwing callback is invoked exactly once with the
serialized output before `render` returns (normally); with no callback
supplied, `render` completes without throwing, invokes no callback, and
records the diagnostic log warning `CB = undefined`. -/
theorem render_callback_contract :
    (∀ (env : Env) (cfg : Config) (id txt : String) (container : Option String)
       (dom0 : List Surface) (cbf : String → Except Unit Unit),
       (∀ name t i fl, ∃ s, env.draw name t i fl = Except.ok s) →
       env.cbo = some cbf → (∀ s, cbf s = Except.ok ()) →
       (render env cfg id txt container dom0).1 = Except.ok () ∧
       countCallbacks (render env cfg id txt container dom0).2.2 = 1) ∧
    (∀ (env : Env) (cfg : Config) (id txt : String) (container : Option String)
       (dom0 : List Surface),
       (∀ name t i fl, ∃ s, env.draw name t i fl = Except.ok s) →
       env.cbo = none →
       (render env cfg id txt container dom0).1 = Except.ok () ∧
       countCallbacks (render env cfg id txt container dom0).2.2 = 0 ∧
       Event.logWarn "CB = undefined" ∈
         (render env cfg id txt container dom0).2.2) := by
  constructor
  · intro env cfg id txt container dom0 cbf hdraw hcbo hcb
    have hbo := branchOf_outcome_ok env cfg
      (dom0 ++ [{ divId := "d" ++ id, content := initialContent id }])
      ("d" ++ id) txt id (env.detectType txt) hdraw
    have hseldom : ∃ y, selectNode (branchOf env cfg
        (dom0 ++ [{ divId := "d" ++ id, content := initialContent id }])
        ("d" ++ id) txt id (env.detectType txt)).1 ("d" ++ id) = some y := by
      rcases branchOf_dom env cfg
          (dom0 ++ [{ divId := "d" ++ id, content := initialContent id }])
          ("d" ++ id) txt id (env.detectType txt) with h | ⟨s, h⟩
      · rw [h]
        exact selectNode_append_some dom0 _ ("d" ++ id) rfl
      · rw [h, selectNode_setContent]
        obtain ⟨y, hy⟩ := selectNode_append_some dom0
          { divId := "d" ++ id, content := initialContent id } ("d" ++ id) rfl
        rw [hy]
        exact ⟨_, rfl⟩
    obtain ⟨y, hy⟩ := hseldom
    have hfin := finishRender_ok_cb_ok env ("d" ++ id)
      (branchOf env cfg
        (dom0 ++ [{ divId := "d" ++ id, content := initialContent id }])
        ("d" ++ id) txt id (env.detectType txt)) y cbf hbo hy hcbo
      (hcb (fixUrl env y.content))
    constructor
    · show (finishRender env ("d" ++ id)
          (branchOf env cfg
            (dom0 ++ [{ divId := "d" ++ id, content := initialContent id }])
            ("d" ++ id) txt id (env.detectType txt))).1 = Except.ok ()
      rw [hfin]
    · show countCallbacks (Event.createdSurface ("d" ++ id) (anchorOf container) ::
          (finishRender env ("d" ++ id)
            (branchOf env cfg
              (dom0 ++ [{ divId := "d" ++ id, content := initialContent id }])
              ("d" ++ id) txt id (env.detectType txt))).2.2) = 1
      rw [hfin]
      show countCallbacks ((branchOf env cfg
          (dom0 ++ [{ divId := "d" ++ id, content := initialContent id }])
          ("d" ++ id) txt id (env.detectType txt)).2.1
        ++ [Event.callbackInvoked (fixUrl env y.content)]
        ++ (teardown env (branchOf env cfg
              (dom0 ++ [{ divId := "d" ++ id, content := initialContent id }])
              ("d" ++ id) txt id (env.detectType txt)).1 ("d" ++ id)).2) = 1
      rw [countCallbacks_append, countCallbacks_append, branchOf_countCallbacks,
          teardown_countCallbacks]
      rfl
  · intro env cfg id txt container dom0 hdraw hcbo
    have hbo := branchOf_outcome_ok env cfg
      (dom0 ++ [{ divId := "d" ++ id, content := initialContent id }])
      ("d" ++ id) txt id (env.detectType txt) hdraw
    have hseldom : ∃ y, selectNode (branchOf env cfg
        (dom0 ++ [{ divId := "d" ++ id, content := initialContent id }])
        ("d" ++ id) txt id (env.detectType txt)).1 ("d" ++ id) = some y := by
      rcases branchOf_dom env cfg
          (dom0 ++ [{ divId := "d" ++ id, content := initialContent id }])
          ("d" ++ id) txt id (env.detectType txt) with h | ⟨s, h⟩
      · rw [h]
        exact selectNode_append_some dom0 _ ("d" ++ id) rfl
      · rw [h, selectNode_setContent]
        obtain ⟨y, hy⟩ := selectNode_append_some dom0
          { divId := "d" ++ id, content := initialContent id } ("d" ++ id) rfl
        rw [hy]
        exact ⟨_, rfl⟩
    obtain ⟨y, hy⟩ := hseldom
    have hfin := finishRender_ok_nocb env ("d" ++ id)
      (branchOf env cfg
        (dom0 ++ [{ divId := "d" ++ id, content := initialContent id }])
        ("d" ++ id) txt id (env.detectType txt)) y hbo hy hcbo
    refine ⟨?_, ?_, ?_⟩
    · show (finishRender env ("d" ++ id)
          (branchOf env cfg
            (dom0 ++ [{ divId := "d" ++ id, content := initialContent id }])
            ("d" ++ id) txt id (env.detectType txt))).1 = Except.ok ()
      rw [hfin]
    · show countCallbacks (Event.createdSurface ("d" ++ id) (anchorOf container) ::
          (finishRender env ("d" ++ id)
            (branchOf env cfg
              (dom0 ++ [{ divId := "d" ++ id, content := initialContent id }])
              ("d" ++ id) txt id (env.detectType txt))).2.2) = 0
      rw [hfin]
      show countCallbacks ((branchOf env cfg
          (dom0 ++ [{ divId := "d" ++ id, content := initialContent id }])
          ("d" ++ id) txt id (env.detectType txt)).2.1
        ++ [Event.logWarn "CB = undefined"]
        ++ (teardown env (branchOf env cfg
              (dom0 ++ [{ divId := "d" ++ id, content := initialContent id }])
              ("d" ++ id) txt id (env.detectType txt)).1 ("d" ++ id)).2) = 0
      rw [countCallbacks_append, countCallbacks_append, branchOf_countCallbacks,
          teardown_countCallbacks]
      rfl
    · show Event.logWarn "CB = undefined" ∈
        Event.createdSurface ("d" ++ id) (anchorOf container) ::
          (finishRender env ("d" ++ id)
            (branchOf env cfg
              (dom0 ++ [{ divId := "d" ++ id, content := initialContent id }])
              ("d" ++ id) txt id (env.detectType txt))).2.2
      rw [hfin]
      simp

/-- C9 witness: concrete renders exercising both halves of the amended
claim. -/
theorem render_callback_contract_witness :
    ((render envFlowCb defaultConfig "w5" "graph TB" none []).1 = Except.ok () ∧
     countCallbacks (render envFlowCb defaultConfig "w5" "graph TB" none []).2.2 = 1) ∧
    ((render envFlowNoCb defaultConfig "w6" "graph TB" none []).1 = Except.ok () ∧
     countCallbacks (render envFlowNoCb defaultConfig "w6" "graph TB" none []).2.2 = 0 ∧
     Event.logWarn "CB = undefined" ∈
       (render envFlowNoCb defaultConfig "w6" "graph TB" none []).2.2) :=
  ⟨render_callback_contract.1 envFlowCb defaultConfig "w5" "graph TB" none []
     (fun _ => Except.ok ())
     (fun _ _ _ _ => ⟨"<svg>drawn</svg>", rfl⟩) rfl (fun _ => rfl),
   render_callback_contract.2 envFlowNoCb defaultConfig "w6" "graph TB" none []
     (fun _ _ _ _ => ⟨"<svg>drawn</svg>", rfl⟩) rfl⟩

/-! ## Replacement lemmas and Claim C3 (corrected) -/

theorem matchAt_self_append (pat b : List Char) : matchAt pat (pat ++ b) = some b := by
  induction pat with
  | nil => rfl
  | cons p ps ih => simp [matchAt, ih]

theorem replaceFuel_cons_none (pat repl : List Char) (n : Nat) (c : Char)
    (cs : List Char) (h : matchAt pat (c :: cs) = none) :
    replaceFuel pat repl (n + 1) (c :: cs) = c :: replaceFuel pat repl n cs := by
  have hstep : replaceFuel pat repl (n + 1) (c :: cs) =
      (match matchAt pat (c :: cs) with
       | some rest =>
         if pat.isEmpty then c :: replaceFuel pat repl n cs
         else repl ++ replaceFuel pat repl n rest
       | none => c :: replaceFuel pat repl n cs) := rfl
  rw [hstep, h]

theorem replaceFuel_cons_some (pat repl : List Char) (n : Nat) (c : Char)
    (cs rest : List Char) (hp : pat.isEmpty = false)
    (h : matchAt pat (c :: cs) = some rest) :
    replaceFuel pat repl (n + 1) (c :: cs) = repl ++ replaceFuel pat repl n rest := by
  have hstep : replaceFuel pat repl (n + 1) (c :: cs) =
      (match matchAt pat (c :: cs) with
       | some r =>
         if pat.isEmpty then c :: replaceFuel pat repl n cs
         else repl ++ replaceFuel pat repl n r
       | none => c :: replaceFuel pat repl n cs) := rfl
  rw [hstep, h, hp]
  simp

theorem replaceFuel_no_occ (pat repl : List Char) :
    ∀ (n : Nat) (s : List Char), occursIn pat s = false → replaceFuel pat repl n s = s := by
  intro n
  induction n with
  | zero => intro s _; cases s <;> rfl
  | succ n ih =>
    intro s h
    cases s with
    | nil => rfl
    | cons c cs =>
      rw [occursIn] at h
      have h1 : matchAt pat (c :: cs) = none := by
        cases hm : matchAt pat (c :: cs) with
        | none => rfl
        | some r => rw [hm] at h; simp at h
      have h2 : occursIn pat cs = false := by
        rw [h1] at h
        simpa using h
      rw [replaceFuel_cons_none pat repl n c cs h1, ih cs h2]

theorem replaceFuel_consume (pat repl : List Char) (hp : pat ≠ []) :
    ∀ (a : List Char) (n : Nat) (t : List Char),
      a.length + pat.length + t.length ≤ n →
      (∀ i, i < a.length → matchAt pat (a.drop i ++ (pat ++ t)) = none) →
      ∃ m, t.length ≤ m ∧
        replaceFuel pat repl n (a ++ (pat ++ t)) =
          a ++ (repl ++ replaceFuel pat repl m t) := by
  intro a
  induction a with
  | nil =>
    intro n t hn _
    cases pat with
    | nil => exact absurd rfl hp
    | cons p ps =>
      cases n with
      | zero =>
        simp only [List.length_nil, List.length_cons] at hn
        omega
      | succ n =>
        refine ⟨n, ?_, ?_⟩
        · simp only [List.length_nil, List.length_cons] at hn
          omega
        · have hm : matchAt (p :: ps) (p :: (ps ++ t)) = some t :=
            matchAt_self_append (p :: ps) t
          exact replaceFuel_cons_some (p :: ps) repl n p (ps ++ t) t rfl hm
  | cons c a' ih =>
    intro n t hn hpre
    have h0 : matchAt pat (c :: (a' ++ (pat ++ t))) = none := hpre 0 (Nat.succ_pos _)
    cases n with
    | zero =>
      simp only [List.length_cons] at hn
      have hplen : 1 ≤ pat.length := by
        cases pat with
        | nil => exact absurd rfl hp
        | cons p ps => simp
      omega
    | succ n =>
      have hpre' : ∀ i, i < a'.length →
          matchAt pat (a'.drop i ++ (pat ++ t)) = none :=
        fun i hi => hpre (i + 1) (Nat.succ_lt_succ hi)
      have hn' : a'.length + pat.length + t.length ≤ n := by
        simp only [List.length_cons] at hn
        omega
      obtain ⟨m, hm, heq⟩ := ih n t hn' hpre'
      exact ⟨m, hm, (replaceFuel_cons_none pat repl n c (a' ++ (pat ++ t)) h0).trans
        (congrArg (c :: ·) heq)⟩

theorem noEarlyMatch_spec (pat : List Char) :
    ∀ (a t : List Char), noEarlyMatch pat a t = true →
      ∀ i, i < a.length → matchAt pat (a.drop i ++ t) = none := by
  intro a
  induction a with
  | nil =>
    intro t _ i hi
    simp at hi
  | cons c cs ih =>
    intro t h i hi
    simp only [noEarlyMatch, Bool.and_eq_true] at h
    obtain ⟨h1, h2⟩ := h
    cases i with
    | zero =>
      have hnone : matchAt pat (c :: (cs ++ t)) = none := by
        cases hm : matchAt pat (c :: (cs ++ t)) with
        | none => rfl
        | some r => rw [hm] at h1; simp at h1
      exact hnone
    | succ j =>
      exact ih t h2 j (Nat.lt_of_succ_lt_succ hi)

theorem replaceFuel_global (pat repl : List Char) (hp : pat ≠ []) :
    ∀ (segs : List (List Char)) (n : Nat),
      (interleave pat segs).length ≤ n →
      leftmostChain pat segs = true →
      replaceFuel pat repl n (interleave pat segs) = interleave repl segs := by
  intro segs
  induction segs with
  | nil =>
    intro n _ _
    cases n <;> rfl
  | cons a rest ih =>
    intro n hn hchain
    cases rest with
    | nil =>
      have hocc : occursIn pat a = false := by
        have hb : (!occursIn pat a) = true := hchain
        simpa using hb
      exact replaceFuel_no_occ pat repl n a hocc
    | cons b rest' =>
      simp only [leftmostChain, Bool.and_eq_true] at hchain
      obtain ⟨h1, h2⟩ := hchain
      have hpre := noEarlyMatch_spec pat a (pat ++ interleave pat (b :: rest')) h1
      have hn' : a.length + pat.length + (interleave pat (b :: rest')).length ≤ n := by
        have hlen : (interleave pat (a :: b :: rest')).length
            = a.length + (pat.length + (interleave pat (b :: rest')).length) := by
          simp [interleave, List.length_append]
        rw [hlen] at hn
        omega
      obtain ⟨m, hm, heq⟩ := replaceFuel_consume pat repl hp a n
        (interleave pat (b :: rest')) hn' hpre
      calc replaceFuel pat repl n (interleave pat (a :: b :: rest'))
          = a ++ (repl ++ replaceFuel pat repl m (interleave pat (b :: rest'))) := heq
        _ = a ++ (repl ++ interleave repl (b :: rest')) := by rw [ih m hm h2]
        _ = interleave repl (a :: b :: rest') := rfl

theorem strData_append (s t : String) : (s ++ t).data = s.data ++ t.data := by
  cases s
  cases t
  rfl

theorem strEq_of_data {s t : String} (h : s.data = t.data) : s = t := by
  cases s
  cases t
  exact congrArg String.mk h

theorem interleaveStr_data (sep : String) :
    ∀ l : List String,
      (interleaveStr sep l).data = interleave sep.data (l.map String.data) := by
  intro l
  induction l with
  | nil => rfl
  | cons a rest ih =>
    cases rest with
    | nil => rfl
    | cons b rest' =>
      show (a ++ (sep ++ interleaveStr sep (b :: rest'))).data = _
      rw [strData_append, strData_append, ih]
      rfl

/-- C3 counterexample.  The base-tag fix of line 358 replaces only the
literal pattern `url(#arrowhead`: a sequence render whose markup holds the
same-document fragment reference `url(#myGradient)` delivers it to the
callback unchanged, not rewritten to the absolute-path-qualified
`url(http://example.com/page.html#myGradient)` the claim requires for every
fragment name. -/
theorem render_gradient_not_rewritten :
    (render envSeqGradient defaultConfig "a" "sequence text" none []).2.2 =
      [Event.createdSurface "da" "body",
       Event.rendererSetConf "seq" (some (CVal.obj defaultSequenceDiagram)),
       Event.rendererDraw "seq",
       Event.cloneCss,
       Event.callbackInvoked "url(#myGradient)",
       Event.removedSurface "da"] ∧
    ("url(#myGradient)" : String) ≠ "url(http://example.com/page.html#myGradient)" :=
  ⟨rfl, by decide⟩

/-- C3 (amended): the serialized output has every occurrence of the specific
fragment reference `url(#arrowhead` rewritten to the absolute-path-qualified
reference built from the document's protocol, host and pathname; fragment
references with any other name are left unchanged.  Conjuncts: (1) for any
markup decomposed as segments around the left-to-right, non-overlapping
occurrences of `url(#arrowhead` — any number of occurrences — every one of
those occurrences is rewritten to the qualified form and the segments are
delivered unchanged; (2) markup with no occurrence of `url(#arrowhead` is
delivered verbatim; (3) the string the callback receives is exactly `fixUrl`
of the markup the renderer drew. -/
theorem fixUrl_arrowhead_only :
    (∀ (env : Env) (segs : List String),
       leftmostChain ("url(#arrowhead".data) (segs.map String.data) = true →
       fixUrl env (interleaveStr "url(#arrowhead" segs) =
         interleaveStr ("url(" ++ env.protocol ++ "//" ++ env.host
           ++ env.pathname ++ "#arrowhead") segs) ∧
    (∀ (env : Env) (s : String),
       occursIn ("url(#arrowhead".data) s.data = false → fixUrl env s = s) ∧
    (∀ (env : Env) (cfg : Config) (id txt : String) (container : Option String)
       (dom0 : List Surface) (s : String) (cbf : String → Except Unit Unit),
       env.detectType txt = "sequenceDiagram" →
       env.draw "seq" txt id false = Except.ok s →
       env.cbo = some cbf →
       freshFor dom0 ("d" ++ id) →
       Event.callbackInvoked (fixUrl env s) ∈
         (render env cfg id txt container dom0).2.2) := by
  refine ⟨?_, ?_, ?_⟩
  · intro env segs h
    apply strEq_of_data
    show replaceFuel ("url(#arrowhead".data)
        ("url(" ++ env.protocol ++ "//" ++ env.host ++ env.pathname
          ++ "#arrowhead").data
        (interleaveStr "url(#arrowhead" segs).data.length
        ((interleaveStr "url(#arrowhead" segs).data)
      = (interleaveStr ("url(" ++ env.protocol ++ "//" ++ env.host
          ++ env.pathname ++ "#arrowhead") segs).data
    rw [interleaveStr_data, interleaveStr_data]
    exact replaceFuel_global ("url(#arrowhead".data) _ (by decide)
      (segs.map String.data) _ (le_refl _) h
  · intro env s h
    apply strEq_of_data
    show replaceFuel ("url(#arrowhead".data)
        ("url(" ++ env.protocol ++ "//" ++ env.host ++ env.pathname
          ++ "#arrowhead").data s.data.length s.data = s.data
    exact replaceFuel_no_occ _ _ _ s.data h
  · intro env cfg id txt container dom0 s cbf hdet hdraw hcbo hf
    have hdom : (branchOf env cfg
        (dom0 ++ [{ divId := "d" ++ id, content := initialContent id }])
        ("d" ++ id) txt id (env.detectType txt)).1
        = setContent (dom0 ++ [{ divId := "d" ++ id, content := initialContent id }])
            ("d" ++ id) s := by
      rw [hdet]
      simp [branchOf, runDiagram, hdraw]
    have hout : (branchOf env cfg
        (dom0 ++ [{ divId := "d" ++ id, content := initialContent id }])
        ("d" ++ id) txt id (env.detectType txt)).2.2 = Except.ok () := by
      rw [hdet]
      simp [branchOf, runDiagram, hdraw]
    have hsel : selectNode (branchOf env cfg
        (dom0 ++ [{ divId := "d" ++ id, content := initialContent id }])
        ("d" ++ id) txt id (env.detectType txt)).1 ("d" ++ id)
        = some { divId := "d" ++ id, content := s } := by
      rw [hdom, setContent_append_fresh dom0 _ ("d" ++ id) s hf rfl]
      exact selectNode_append_fresh dom0 _ ("d" ++ id) hf rfl
    cases hcb : cbf (fixUrl env s) with
    | ok u =>
      cases u
      have hfin := finishRender_ok_cb_ok env ("d" ++ id)
        (branchOf env cfg
          (dom0 ++ [{ divId := "d" ++ id, content := initialContent id }])
          ("d" ++ id) txt id (env.detectType txt))
        { divId := "d" ++ id, content := s } cbf hout hsel hcbo hcb
      show Event.callbackInvoked (fixUrl env s) ∈
        Event.createdSurface ("d" ++ id) (anchorOf container) ::
          (finishRender env ("d" ++ id)
            (branchOf env cfg
              (dom0 ++ [{ divId := "d" ++ id, content := initialContent id }])
              ("d" ++ id) txt id (env.detectType txt))).2.2
      rw [hfin]
      simp
    | error e =>
      have hfin := finishRender_ok_cb_err env ("d" ++ id)
        (branchOf env cfg
          (dom0 ++ [{ divId := "d" ++ id, content := initialContent id }])
          ("d" ++ id) txt id (env.detectType txt))
        { divId := "d" ++ id, content := s } cbf e hout hsel hcbo hcb
      show Event.callbackInvoked (fixUrl env s) ∈
        Event.createdSurface ("d" ++ id) (anchorOf container) ::
          (finishRender env ("d" ++ id)
            (branchOf env cfg
              (dom0 ++ [{ divId := "d" ++ id, content := initialContent id }])
              ("d" ++ id) txt id (env.detectType txt))).2.2
      rw [hfin]
      simp

/-- C3 witness: the amended rewrite semantics evaluated on concrete markup
with two occurrences of `url(#arrowhead` — both are rewritten (with
`protocol https:`, `host h`, `pathname /p`), markup without the pattern is
untouched, and a rendered sequence diagram's callback receives `fixUrl` of
the drawn markup. -/
theorem fixUrl_arrowhead_only_witness :
    interleaveStr "url(#arrowhead" ["a=", ") b=", ")"] =
      "a=url(#arrowhead) b=url(#arrowhead)" ∧
    fixUrl envSeqAbc (interleaveStr "url(#arrowhead" ["a=", ") b=", ")"]) =
      interleaveStr ("url(" ++ envSeqAbc.protocol ++ "//" ++ envSeqAbc.host
        ++ envSeqAbc.pathname ++ "#arrowhead") ["a=", ") b=", ")"] ∧
    interleaveStr ("url(" ++ envSeqAbc.protocol ++ "//" ++ envSeqAbc.host
        ++ envSeqAbc.pathname ++ "#arrowhead") ["a=", ") b=", ")"] =
      "a=url(https://h/p#arrowhead) b=url(https://h/p#arrowhead)" ∧
    fixUrl envSeqAbc "no fragment here" = "no fragment here" ∧
    Event.callbackInvoked (fixUrl envSeqAbc "abc") ∈
      (render envSeqAbc defaultConfig "w3" "seq text" none []).2.2 :=
  ⟨by decide,
   fixUrl_arrowhead_only.1 envSeqAbc ["a=", ") b=", ")"] (by decide),
   by decide,
   fixUrl_arrowhead_only.2.1 envSeqAbc "no fragment here" (by decide),
   fixUrl_arrowhead_only.2.2 envSeqAbc defaultConfig "w3" "seq text" none [] "abc"
     (fun _ => Except.ok ()) rfl rfl rfl
     (fun s hs => absurd hs (List.not_mem_nil s))⟩
